import Mathlib

/-!
Shallow embedding of the core of `chronomap-ai` (`src/services/dataProcessor.ts`):
the schema-normalizing parser `parseTimelineData` (with `findDataArray`,
`extractCity`, `e7ToFloat`) and the aggregation engine `calculateStats`.

Modelling conventions for JavaScript values:
* A JS `Date` is `JsDate := Option Int` (epoch milliseconds); `none` models an
  Invalid Date (`getTime()` is NaN).  Comparisons involving NaN are `false`.
* A JS number is `JsNum` (either NaN or an exact rational; IEEE rounding is
  irrelevant to every property proved here).
* A string field that is fed to `new Date(...)` is modelled by its parse
  result `Option (Option Int)`: outer `none` = the field is absent or the
  empty string (both are falsy and behave identically at every use site),
  `some none` = a present, truthy string that does not parse to a valid
  instant, `some (some t)` = a present string parsing to instant `t`.
* A string field fed to `parseLatLngString` (the `"<lat>°, <lng>°"` regex)
  is modelled by its parse result `Option (ℚ × ℚ)`: `none` = absent /
  not a string / no regex match.
* `subtitle` and `raw` of the source's `ProcessedEvent` are omitted: no
  claim mentions them and nothing else in the source reads them back.
-/

/-- A JS `Date` value: `none` is an Invalid Date (NaN time value). -/
abbrev JsDate := Option Int

/-- JS `<` on two Dates (via their time values): any comparison with NaN is false. -/
def jsLtD : JsDate → JsDate → Bool
  | some x, some y => decide (x < y)
  | _, _ => false

/-- JS `a || b` on two optional values of the same kind (absent = falsy). -/
def jsOr {α : Type} (a b : Option α) : Option α :=
  match a with
  | some x => some x
  | none => b

/-- Parse result of a timestamp string: see the conventions above. -/
abbrev TsField := Option (Option Int)

/-- A JS number: NaN or an exact rational. -/
inductive JsNum where
  | nan : JsNum
  | num (q : ℚ) : JsNum
deriving DecidableEq

/-- JS truthiness of a number: `0`, `-0` and `NaN` are falsy. -/
def JsNum.truthy : JsNum → Bool
  | .nan => false
  | .num q => decide (q ≠ 0)

/-- The rational carried by a number; `0` for NaN (only used after a truthiness gate). -/
def JsNum.toQ : JsNum → ℚ
  | .nan => 0
  | .num q => q

/-- JS `a || b` where `a` is an optional number and `b` a number default. -/
def jsOrNum (a : Option JsNum) (d : JsNum) : JsNum :=
  match a with
  | some x => if x.truthy then x else d
  | none => d

/-- JS `a || b` where `a` is an optional string and `b` a string default
(the empty string is falsy). -/
def jsOrStr (a : Option String) (d : String) : String :=
  match a with
  | some s => if s = "" then d else s
  | none => d

/-- A value sitting in a `latitudeE7`-style field: a number, a string
(kept with its `parseFloat` result), or absent/other (treated as 0 by
`e7ToFloat` and falsy). -/
inductive E7Val where
  | undef : E7Val
  | numV (x : JsNum) : E7Val
  | strV (s : String) (parsed : JsNum) : E7Val
deriving DecidableEq

/-- JS truthiness of an `E7Val`. -/
def E7Val.truthy : E7Val → Bool
  | .undef => false
  | .numV x => x.truthy
  | .strV s _ => decide (s ≠ "")

/-- Source `e7ToFloat`: divide numbers (or parsed strings) by 1e7; anything else is 0. -/
def e7ToFloat : E7Val → JsNum
  | .undef => .num 0
  | .numV .nan => .nan
  | .numV (.num q) => .num (q / 10000000)
  | .strV _ .nan => .nan
  | .strV _ (.num q) => .num (q / 10000000)

/-- Model of `s.replace(/_/g, ' ')`: every underscore becomes a space. -/
def replaceUnderscores (s : String) : String :=
  String.mk (s.data.map (fun c => if c = '_' then ' ' else c))

/-- Source `extractCity`: split a free-text address on commas, trim, and apply the
zip-code heuristic of the source. -/
def extractCity (address : Option String) : Option String :=
  match address with
  | none => none
  | some a =>
    if a = "" then none
    else
      let parts := (a.splitOn ",").map String.trim
      if parts.length ≥ 3 then
        let regionPart := parts.getD (parts.length - 2) ""
        if regionPart.any Char.isDigit then some (parts.getD (parts.length - 3) "")
        else some regionPart
      else if parts.length = 2 then some (parts.getD 0 "")
      else if parts.length > 0 then some (parts.getD 0 "")
      else none

/-- The `ProcessedEvent.type` values. -/
inductive EventType where
  | VISIT : EventType
  | MOVE : EventType
  | POINT : EventType
deriving DecidableEq

/-- The normalized event (source `ProcessedEvent`; `subtitle`/`raw` omitted,
see the header comment). -/
structure ProcessedEvent where
  id : String := ""
  type : EventType := .POINT
  title : String := ""
  startTime : JsDate := none
  endTime : JsDate := none
  lat : ℚ := 0
  lng : ℚ := 0
  distanceMeters : Option JsNum := none
  city : Option String := none
  activityType : Option String := none
  placeId : Option String := none
deriving DecidableEq

/-- A legacy `location` / `startLocation` / `endLocation` object. -/
structure LegacyLoc where
  latitudeE7 : E7Val := .undef
  longitudeE7 : E7Val := .undef
  latitude : Option JsNum := none
  longitude : Option JsNum := none
  lat : Option JsNum := none
  lng : Option JsNum := none
  placeId : Option String := none
  address : Option String := none
  name : Option String := none
deriving DecidableEq

/-- Model of `loc.latitudeE7 ? e7ToFloat(loc.latitudeE7) : (loc.latitude || loc.lat || 0)`
(the legacy *visit* branch). -/
def resolveLatVisit (loc : LegacyLoc) : JsNum :=
  if loc.latitudeE7.truthy then e7ToFloat loc.latitudeE7
  else jsOrNum loc.latitude (jsOrNum loc.lat (.num 0))

/-- Longitude analogue of `resolveLatVisit`. -/
def resolveLngVisit (loc : LegacyLoc) : JsNum :=
  if loc.longitudeE7.truthy then e7ToFloat loc.longitudeE7
  else jsOrNum loc.longitude (jsOrNum loc.lng (.num 0))

/-- Model of `loc?.latitudeE7 ? e7ToFloat(loc.latitudeE7) : (loc?.latitude || 0)`
(the legacy *activity* branch: no `.lat` fallback, `loc` may be absent). -/
def resolveLatAct (loc : Option LegacyLoc) : JsNum :=
  match loc with
  | some l => if l.latitudeE7.truthy then e7ToFloat l.latitudeE7 else jsOrNum l.latitude (.num 0)
  | none => .num 0

/-- Longitude analogue of `resolveLatAct`. -/
def resolveLngAct (loc : Option LegacyLoc) : JsNum :=
  match loc with
  | some l => if l.longitudeE7.truthy then e7ToFloat l.longitudeE7 else jsOrNum l.longitude (.num 0)
  | none => .num 0

/-- A `duration` object (legacy dialect or top level). -/
structure LegacyDuration where
  startTimestamp : TsField := none
  endTimestamp : TsField := none
  startTime : TsField := none
  endTime : TsField := none
deriving DecidableEq

/-- The `topCandidate.placeLocation` of a semantic visit. -/
structure PlaceLocation where
  latLng : Option (ℚ × ℚ) := none
  address : Option String := none
deriving DecidableEq

/-- The `topCandidate` of a semantic visit. -/
structure TopCandidate where
  placeLocation : Option PlaceLocation := none
  name : Option String := none
  placeId : Option String := none
deriving DecidableEq

/-- A `visit` / `placeVisit` object.  The same JS object may be read with the
semantic fields (`topCandidate`) or the legacy fields (`location`, `duration`),
so the model carries both views. -/
structure VisitObj where
  topCandidate : Option TopCandidate := none
  location : Option LegacyLoc := none
  duration : Option LegacyDuration := none
deriving DecidableEq

/-- An `activity` / `activitySegment` object, carrying both the semantic view
(`start?.latLng`, `end?.latLng`, `topCandidate?.type`, `distanceMeters`) and
the legacy view (`duration`, `activityType`, `startLocation`, `endLocation`,
`distance`). -/
structure ActivityObj where
  startLatLng : Option (ℚ × ℚ) := none
  endLatLng : Option (ℚ × ℚ) := none
  topCandidateType : Option String := none
  distanceMeters : Option JsNum := none
  duration : Option LegacyDuration := none
  activityType : Option String := none
  startLocation : Option LegacyLoc := none
  endLocation : Option LegacyLoc := none
  distance : Option JsNum := none
deriving DecidableEq

/-- One entry of a `timelinePath` array. -/
structure PathPoint where
  point : Option (ℚ × ℚ) := none
  time : TsField := none
deriving DecidableEq

/-- An `obj.position` object (raw-signal dialect; source key `LatLng`). -/
structure PositionObj where
  latLng : Option (ℚ × ℚ) := none
  timestamp : TsField := none
deriving DecidableEq

/-- One element of the located record array, as read by the per-record loop.
`hasOtherMarkerKey` records whether the underlying JS object has one of the
`isLocationLike` marker keys that this projection does not otherwise keep
(`lat`, `latitude`, `latE7`, `latitudeE7`, `geometry`, `semanticSegments`,
`rawSignals`, `latLng`, `LatLng`). -/
structure Record where
  startTime : TsField := none
  endTime : TsField := none
  duration : Option LegacyDuration := none
  visit : Option VisitObj := none
  activity : Option ActivityObj := none
  timelinePath : Option (List PathPoint) := none
  position : Option PositionObj := none
  placeVisit : Option VisitObj := none
  activitySegment : Option ActivityObj := none
  hasOtherMarkerKey : Bool := false
deriving DecidableEq

/-- Model of `obj.startTime || obj.duration?.startTimestamp`. -/
def effStartStr (obj : Record) : TsField :=
  jsOr obj.startTime (obj.duration.bind (·.startTimestamp))

/-- Model of `obj.endTime || obj.duration?.endTimestamp`. -/
def effEndStr (obj : Record) : TsField :=
  jsOr obj.endTime (obj.duration.bind (·.endTimestamp))

/-- Semantic-visit branch: emit one `VISIT` when the `latLng` string parses and
the start Date is valid. -/
def semVisitEvents (index : Nat) (v : VisitObj) (start endD : JsDate) : List ProcessedEvent :=
  let tc := v.topCandidate
  let coords := (tc.bind (·.placeLocation)).bind (·.latLng)
  match coords, start with
  | some (la, ln), some _ =>
    [{ id := "v-" ++ toString index, type := .VISIT,
       title := jsOrStr (tc.bind (·.name)) "Visited Place",
       startTime := start, endTime := endD, lat := la, lng := ln,
       city := extractCity ((tc.bind (·.placeLocation)).bind (·.address)),
       placeId := tc.bind (·.placeId) }]
  | _, _ => []

/-- Semantic-activity branch: emit one `MOVE` when the *end* `latLng` string
parses and the start Date is valid.  (The source also computes
`startCoords = parseLatLngString(obj.activity.start?.latLng)` and never uses it.) -/
def semActivityEvents (index : Nat) (a : ActivityObj) (start endD : JsDate) : List ProcessedEvent :=
  let typeStr := jsOrStr a.topCandidateType "MOVE"
  match a.endLatLng, start with
  | some (la, ln), some _ =>
    [{ id := "a-" ++ toString index, type := .MOVE,
       title := replaceUnderscores typeStr,
       startTime := start, endTime := endD, lat := la, lng := ln,
       distanceMeters := a.distanceMeters,
       activityType := some (replaceUnderscores typeStr) }]
  | _, _ => []

/-- The `timelinePath` branch: decimated `POINT`s (path indices `0, 5, 10, …`),
each timed by `new Date(pathPt.time || startTime)`. -/
def timelinePathEvents (index : Nat) (pts : List PathPoint) (pst : Option Int) :
    List ProcessedEvent :=
  pts.enum.filterMap (fun pr =>
    match pr.2.point with
    | some (la, ln) =>
      let ptTime : JsDate := match pr.2.time with
        | some p => p
        | none => pst
      match ptTime with
      | some _ =>
        if pr.1 % 5 = 0 then
          some { id := "tp-" ++ toString index ++ "-" ++ toString pr.1, type := .POINT,
                 title := "Path Point", startTime := ptTime, endTime := ptTime,
                 lat := la, lng := ln }
        else none
      | none => none
    | none => none)

/-- Raw-signal branch: at most one `POINT`, only at global indices `0, 50, 100, …`. -/
def rawSignalEvents (index : Nat) (pos : PositionObj) : List ProcessedEvent :=
  match pos.latLng, pos.timestamp with
  | some (la, ln), some p =>
    match p with
    | some t =>
      if index % 50 = 0 then
        [{ id := "rs-" ++ toString index, type := .POINT, title := "Raw Signal",
           startTime := some t, endTime := some t, lat := la, lng := ln }]
      else []
    | none => []
  | _, _ => []

/-- Legacy-visit branch: gate `if (lat && lng && startStr)`; note that no
validity check is applied to the parsed Dates. -/
def legacyVisitEvents (index : Nat) (pv : VisitObj) : List ProcessedEvent :=
  let loc := pv.location.getD {}
  let lat := resolveLatVisit loc
  let lng := resolveLngVisit loc
  let startStr := jsOr (pv.duration.bind (·.startTimestamp)) (pv.duration.bind (·.startTime))
  match startStr, lat.truthy && lng.truthy with
  | some ps, true =>
    let endP : JsDate := match pv.duration.bind (·.endTimestamp) with
      | some pe => pe
      | none => ps
    [{ id := "legacy-v-" ++ toString index, type := .VISIT,
       title := jsOrStr loc.name "Visited Place",
       startTime := ps, endTime := endP, lat := lat.toQ, lng := lng.toQ,
       city := extractCity loc.address, placeId := loc.placeId }]
  | _, _ => []

/-- Legacy-activity branch: location is `endLocation || startLocation`;
gate `if (lat && lng)`; the activity label is NOT underscore-normalized. -/
def legacyActivityEvents (index : Nat) (a : ActivityObj) : List ProcessedEvent :=
  let startStr := jsOr (a.duration.bind (·.startTimestamp)) (a.duration.bind (·.startTime))
  let endStr := jsOr (a.duration.bind (·.endTimestamp)) (a.duration.bind (·.endTime))
  let typeStr := jsOrStr a.activityType "TRAVEL"
  match startStr with
  | some ps =>
    let endP : JsDate := match endStr with
      | some pe => pe
      | none => ps
    let loc := jsOr a.endLocation a.startLocation
    let lat := resolveLatAct loc
    let lng := resolveLngAct loc
    if lat.truthy && lng.truthy then
      [{ id := "legacy-a-" ++ toString index, type := .MOVE, title := typeStr,
         startTime := ps, endTime := endP, lat := lat.toQ, lng := lng.toQ,
         distanceMeters := a.distance, activityType := some typeStr }]
    else []
  | none => []

/-- The per-record body of the `rawItems.forEach` loop of `parseTimelineData`. -/
def processRecord (index : Nat) (obj : Record) : List ProcessedEvent :=
  match effStartStr obj with
  | some pst =>
    let start : JsDate := pst
    let endD : JsDate := match effEndStr obj with
      | some pe => pe
      | none => pst
    match obj.visit with
    | some v => semVisitEvents index v start endD
    | none =>
      match obj.activity with
      | some a => semActivityEvents index a start endD
      | none =>
        match obj.timelinePath with
        | some pts => timelinePathEvents index pts pst
        | none => []
  | none =>
    match obj.position with
    | some pos => rawSignalEvents index pos
    | none =>
      match jsOr obj.placeVisit obj.visit with
      | some pv => legacyVisitEvents index pv
      | none =>
        match jsOr obj.activitySegment obj.activity with
        | some a => legacyActivityEvents index a
        | none => []

/-- An element of a candidate record array.  `nullItem` models a `null` (or
`undefined`) element, on which the loop body's first property access throws —
the only way the wrapped normalizer can raise. -/
inductive Item where
  | record (r : Record) : Item
  | nullItem : Item
deriving DecidableEq

/-- Source `isLocationLike`: does the element carry one of the marker keys?  (`null`
is falsy and never location-like.) -/
def isLocationLike : Item → Bool
  | .nullItem => false
  | .record r => r.hasOtherMarkerKey || r.placeVisit.isSome || r.activitySegment.isSome

/-- A parsed JSON document as inspected by `findDataArray`: falsy, a truthy
non-object primitive, an array of candidate records, or an object with ordered
fields. -/
inductive Document where
  | nullD : Document
  | prim : Document
  | arrD (items : List Item) : Document
  | objD (fields : List (String × Document)) : Document

/-- The keys probed first by `findDataArray`, in source order. -/
def priorityKeys : List String :=
  ["semanticSegments", "rawSignals", "timelineObjects", "locations", "features"]

/-- State of the recursive fallback search: `(bestArray, maxLocationCount)`. -/
abbrev SearchState := Option (List Item) × Nat

mutual
/-- The depth-bounded recursive `search` of `findDataArray`: arrays are scored
by their count of location-like elements and kept on a strict improvement;
object fields are visited in order one level deeper. -/
def searchDoc (node : Document) (depth : Nat) (st : SearchState) : SearchState :=
  if depth > 5 then st
  else
    match node with
    | .nullD => st
    | .prim => st
    | .arrD items =>
      let c := (items.filter isLocationLike).length
      if c > st.2 then (some items, c) else st
    | .objD fields => searchFields fields depth st

/-- Visit the fields of an object node left to right. -/
def searchFields (fields : List (String × Document)) (depth : Nat) (st : SearchState) :
    SearchState :=
  match fields with
  | [] => st
  | (_, v) :: rest => searchFields rest depth (searchDoc v (depth + 1) st)
end

/-- Look up a priority key holding a non-empty array, in key order. -/
def priorityLookup (fields : List (String × Document)) : List String → Option (List Item)
  | [] => none
  | k :: ks =>
    match fields.lookup k with
    | some (.arrD items) => if items.length > 0 then some items else priorityLookup fields ks
    | _ => priorityLookup fields ks

/-- Source `findDataArray`: the document itself if it is an array, else the first
non-empty array under a priority key, else the best array of the bounded
recursive search. -/
def findDataArray : Document → Option (List Item)
  | .nullD => none
  | .arrD items => some items
  | .prim => (searchDoc .prim 0 (none, 0)).1
  | .objD fields =>
    match priorityLookup fields priorityKeys with
    | some items => some items
    | none => (searchDoc (.objD fields) 0 (none, 0)).1

/-- Run the `forEach` body over the items with their global indices, in the
exception monad: a `null` element aborts the whole pass. -/
def processFrom : Nat → List Item → Except Unit (List ProcessedEvent)
  | _, [] => .ok []
  | _, .nullItem :: _ => .error ()
  | i, .record r :: rest => do
    let evs := processRecord i r
    let rest' ← processFrom (i + 1) rest
    return evs ++ rest'

/-- The sort key order of `events.sort((a, b) => a.startTime.getTime() - b.startTime.getTime())`:
`a` may stay before `b` unless `a`'s time value is strictly greater (a NaN
comparison yields a zero-like comparator result). -/
def startLe (a b : ProcessedEvent) : Bool :=
  match a.startTime, b.startTime with
  | some x, some y => decide (x ≤ y)
  | _, _ => true

/-- Stable insertion into a list sorted by `startLe`. -/
def insertByStart (x : ProcessedEvent) : List ProcessedEvent → List ProcessedEvent
  | [] => [x]
  | y :: ys => if startLe x y then x :: y :: ys else y :: insertByStart x ys

/-- The stable sort by ascending `startTime` applied before returning. -/
def sortByStartTime : List ProcessedEvent → List ProcessedEvent
  | [] => []
  | x :: xs => insertByStart x (sortByStartTime xs)

/-- One frequency-map update: `m.set(k, (m.get(k) || 0) + 1)` on a JS `Map`
(insertion-ordered: a new key is appended). -/
def bump (m : List (String × Nat)) (k : String) : List (String × Nat) :=
  match m with
  | [] => [(k, 1)]
  | (k', v) :: rest => if k' = k then (k', v + 1) :: rest else (k', v) :: bump rest k

/-- Build the insertion-ordered frequency map of a list of keys. -/
def countFold (l : List String) : List (String × Nat) :=
  l.foldl bump []

/-- JS `Set.add`: append the element unless already present. -/
def addSet (s : List String) (k : String) : List String :=
  if k ∈ s then s else s ++ [k]

/-- Stable insertion for the descending-by-count sort of `topCities`:
an earlier element stays before any later element it does not strictly beat. -/
def insertByCountDesc (x : String × Nat) : List (String × Nat) → List (String × Nat)
  | [] => [x]
  | y :: ys => if x.2 ≥ y.2 then x :: y :: ys else y :: insertByCountDesc x ys

/-- The stable `sort((a, b) => b[1] - a[1])` on frequency-map entries. -/
def sortByCountDesc : List (String × Nat) → List (String × Nat)
  | [] => []
  | x :: xs => insertByCountDesc x (sortByCountDesc xs)

/-- JS `Math.round` on an exact rational: round half toward positive infinity. -/
def jsRound (q : ℚ) : Int :=
  ⌊q + 1 / 2⌋

/-- The aggregate output (source `DashboardStats`; the `placeVisitCounts`
object is its insertion-ordered entry list; `typeBreakdown`/`homeStats`/
`workStats` are never produced by `calculateStats` and are omitted). -/
structure DashboardStats where
  totalDistanceKm : Int
  totalVisits : Nat
  uniquePlaces : Nat
  topCities : List (String × Nat)
  activityBreakdown : List (String × Nat)
  dateRangeStart : JsDate
  dateRangeEnd : JsDate
  placeVisitCounts : List (String × Nat)
deriving DecidableEq

/-- The running accumulators of the single pass of `calculateStats`. -/
structure StatsAcc where
  totalDistanceMeters : ℚ
  placeCounts : List (String × Nat)
  visitCountsByName : List (String × Nat)
  activityCounts : List (String × Nat)
  uniquePlaceTitles : List String
  minDate : JsDate
  maxDate : JsDate

/-- Model of `new Date(8640000000000000)`: the largest valid Date time value. -/
def SENTMAX : Int := 8640000000000000

/-- Initial accumulators (`minDate`/`maxDate` start at the extreme valid Dates). -/
def statsInit : StatsAcc :=
  { totalDistanceMeters := 0, placeCounts := [], visitCountsByName := [],
    activityCounts := [], uniquePlaceTitles := [],
    minDate := some SENTMAX, maxDate := some (-SENTMAX) }

/-- The body of the `events.forEach` of `calculateStats`. -/
def statsStep (acc : StatsAcc) (e : ProcessedEvent) : StatsAcc :=
  let acc :=
    { acc with
      minDate := if jsLtD e.startTime acc.minDate then e.startTime else acc.minDate,
      maxDate := if jsLtD acc.maxDate e.endTime then e.endTime else acc.maxDate }
  let acc :=
    match e.distanceMeters with
    | some d =>
      if d.truthy then { acc with totalDistanceMeters := acc.totalDistanceMeters + d.toQ }
      else acc
    | none => acc
  match e.type with
  | .VISIT =>
    let acc := { acc with uniquePlaceTitles := addSet acc.uniquePlaceTitles e.title }
    let acc := { acc with visitCountsByName := bump acc.visitCountsByName e.title }
    match e.city with
    | some c => if c ≠ "" then { acc with placeCounts := bump acc.placeCounts c } else acc
    | none => acc
  | .MOVE =>
    match e.activityType with
    | some s => if s ≠ "" then { acc with activityCounts := bump acc.activityCounts s } else acc
    | none => acc
  | .POINT => acc

/-- Source `calculateStats`: short-circuit for an empty input (both date bounds are
`now`, modelling the two `new Date()` calls), otherwise one fold plus the
finalization steps. -/
def calculateStats (now : Int) (events : List ProcessedEvent) : DashboardStats :=
  if events = [] then
    { totalDistanceKm := 0, totalVisits := 0, uniquePlaces := 0, topCities := [],
      activityBreakdown := [], dateRangeStart := some now, dateRangeEnd := some now,
      placeVisitCounts := [] }
  else
    let acc := events.foldl statsStep statsInit
    let topCities := (sortByCountDesc acc.placeCounts).take 5
    let activityBreakdown :=
      if acc.activityCounts = [] ∧ events.length > 0 then
        [("Recorded Points", events.length)]
      else acc.activityCounts
    { totalDistanceKm := jsRound (acc.totalDistanceMeters / 1000),
      totalVisits := events.countP (fun e => decide (e.type = .VISIT)),
      uniquePlaces := acc.uniquePlaceTitles.length,
      topCities := topCities,
      activityBreakdown := activityBreakdown,
      dateRangeStart := acc.minDate,
      dateRangeEnd := acc.maxDate,
      placeVisitCounts := acc.visitCountsByName }

/-- The result of a successful normalize: the sorted events and their stats. -/
structure ParseResult where
  events : List ProcessedEvent
  stats : DashboardStats
deriving DecidableEq

/-- The body of `parseTimelineData` inside its `try`: an exception raised
while processing the records propagates out. -/
def parseTimelineDataE (now : Int) (doc : Document) : Except Unit (Option ParseResult) :=
  match findDataArray doc with
  | none => .ok none
  | some rawItems =>
    if rawItems.length = 0 then .ok none
    else
      match processFrom 0 rawItems with
      | .error e => .error e
      | .ok events =>
        if events.length = 0 then .ok none
        else
          .ok (some { events := sortByStartTime events,
                      stats := calculateStats now (sortByStartTime events) })

/-- Source `parseTimelineData`: any exception is caught and converted to the `null`
(`NotFound`) result. -/
def parseTimelineData (now : Int) (doc : Document) : Option ParseResult :=
  match parseTimelineDataE now doc with
  | .error _ => none
  | .ok r => r

/-! ### Specification-side helper functions used to state the claims -/

/-- Association-list lookup on a frequency map. -/
def alookup : List (String × Nat) → String → Option Nat
  | [], _ => none
  | (k, v) :: rest, q => if k = q then some v else alookup rest q

/-- Index of the first occurrence of `k` in `l` (length of `l` if absent). -/
def firstIdx : List String → String → Nat
  | [], _ => 0
  | x :: xs, k => if x = k then 0 else firstIdx xs k + 1

/-- First occurrences of `l` not yet in `seen`, in encounter order. -/
def fsAux : List String → List String → List String
  | _, [] => []
  | seen, x :: xs => if x ∈ seen then fsAux seen xs else x :: fsAux (x :: seen) xs

/-- Distance contribution of one event (`if (e.distanceMeters) total += ...`). -/
def evDist (e : ProcessedEvent) : ℚ :=
  match e.distanceMeters with
  | some d => if d.truthy then d.toQ else 0
  | none => 0

/-- The title counted for a `VISIT` event. -/
def evTitleKey (e : ProcessedEvent) : Option String :=
  if e.type = .VISIT then some e.title else none

/-- The city counted for a `VISIT` event (`if (e.city)`: empty string is falsy). -/
def evCityKey (e : ProcessedEvent) : Option String :=
  match e.type, e.city with
  | .VISIT, some c => if c ≠ "" then some c else none
  | _, _ => none

/-- The activity label counted for a `MOVE` event (`if (... && e.activityType)`). -/
def evActKey (e : ProcessedEvent) : Option String :=
  match e.type, e.activityType with
  | .MOVE, some s => if s ≠ "" then some s else none
  | _, _ => none

/-- Apply `bump` on an optional key. -/
def bumpOpt (m : List (String × Nat)) : Option String → List (String × Nat)
  | some k => bump m k
  | none => m

/-- Apply `addSet` on an optional key. -/
def addSetOpt (s : List String) : Option String → List String
  | some k => addSet s k
  | none => s

/-- Titles of the visit events, in input order. -/
def visitTitles (events : List ProcessedEvent) : List String :=
  events.filterMap evTitleKey

/-- Cities of the visit events (non-empty, present ones), in input order. -/
def visitCities (events : List ProcessedEvent) : List String :=
  events.filterMap evCityKey

/-- Activity labels of the move events (non-empty, present ones), in input order. -/
def moveActs (events : List ProcessedEvent) : List String :=
  events.filterMap evActKey

/-- Relation `a ≤ b` on Date values, demanding both to be valid instants. -/
def jsDLe (a b : JsDate) : Prop :=
  ∃ x y, a = some x ∧ b = some y ∧ x ≤ y

/-- A Date value that is a valid instant (time value in the JS Date range). -/
def validT : JsDate → Bool
  | some t => decide (-SENTMAX ≤ t) && decide (t ≤ SENTMAX)
  | none => false

/-! ### Concrete inputs used by witnesses and counterexamples -/

/-- An event whose `startTime` lies after its `endTime`. -/
def c1cex : ProcessedEvent := { type := .POINT, startTime := some 2, endTime := some 1 }

/-- A plain event with valid times. -/
def c1ev : ProcessedEvent := { type := .POINT, startTime := some 5, endTime := some 9 }

/-- Six one-visit cities, all tied at count 1. -/
def c5l1 : List ProcessedEvent :=
  [{ type := .VISIT, title := "t", city := some "A", startTime := some 0, endTime := some 0 },
   { type := .VISIT, title := "t", city := some "B", startTime := some 0, endTime := some 0 },
   { type := .VISIT, title := "t", city := some "C", startTime := some 0, endTime := some 0 },
   { type := .VISIT, title := "t", city := some "D", startTime := some 0, endTime := some 0 },
   { type := .VISIT, title := "t", city := some "E", startTime := some 0, endTime := some 0 },
   { type := .VISIT, title := "t", city := some "F", startTime := some 0, endTime := some 0 }]

/-- The same six visits in reverse order. -/
def c5l2 : List ProcessedEvent := c5l1.reverse

/-- A two-event list for the C5 witness. -/
def c5w1 : List ProcessedEvent :=
  [{ type := .VISIT, title := "p", city := some "X", startTime := some 1, endTime := some 2 },
   { type := .MOVE, title := "walk", activityType := some "walk", startTime := some 3, endTime := some 4 }]

/-- The same two events swapped. -/
def c5w2 : List ProcessedEvent := c5w1.reverse

/-- A legacy placeVisit record with good coordinates and a present but
unparseable timestamp string. -/
def c2rec : Record :=
  { placeVisit := some { location := some { latitude := some (.num 34), longitude := some (.num 10) },
                         duration := some { startTimestamp := some none } } }

/-- A semantic record whose only timestamp is present but unparseable. -/
def c2w : Record := { startTime := some none }

/-- A legacy activity record with an underscored transport label. -/
def c6rec : Record :=
  { activitySegment := some { activityType := some "IN_VEHICLE",
                              duration := some { startTimestamp := some (some 0) },
                              endLocation := some { latitude := some (.num 1),
                                                    longitude := some (.num 2) } } }

/-- A semantic activity record with an underscored transport label. -/
def c6w : Record :=
  { startTime := some (some 0),
    activity := some { endLatLng := some (1, 2), topCandidateType := some "IN_BUS" } }

/-- The Move event `processRecord` emits for `c6w` at index 0. -/
def c6we : ProcessedEvent :=
  { id := "a-0", type := .MOVE, title := "IN BUS", startTime := some 0, endTime := some 0,
    lat := 1, lng := 2, activityType := some "IN BUS" }

/-- A record carrying a visit, an activity and a raw-signal position but no
start time. -/
def c7rec : Record :=
  { visit := some {}, activity := some {},
    position := some { latLng := some (1, 2), timestamp := some (some 7) } }

/-- A semantic record carrying both a valid visit and an activity. -/
def c7w : Record :=
  { startTime := some (some 0),
    visit := some { topCandidate := some { placeLocation := some { latLng := some (1, 2) } } },
    activity := some {} }

/-- The Visit event `processRecord` emits for `c7w` at index 0. -/
def c7we : ProcessedEvent :=
  { id := "v-0", type := .VISIT, title := "Visited Place", startTime := some 0, endTime := some 0,
    lat := 1, lng := 2 }

/-- A legacy visit object whose resolved latitude is exactly zero. -/
def c8pv : VisitObj :=
  { location := some { latitude := some (.num 0), longitude := some (.num 10) },
    duration := some { startTimestamp := some (some 0) } }

/-- A legacy record wrapping `c8pv`. -/
def c8w : Record := { placeVisit := some c8pv }

/-- A semantic activity object with only an end coordinate. -/
def c9act : ActivityObj := { endLatLng := some (3, 4) }

/-- A semantic activity record wrapping `c9act`. -/
def c9w : Record := { startTime := some (some 5), activity := some c9act }

/-! ### Lemmas about the aggregation fold -/

theorem statsStep_eq (acc : StatsAcc) (e : ProcessedEvent) :
    statsStep acc e =
      { totalDistanceMeters := acc.totalDistanceMeters + evDist e,
        placeCounts := bumpOpt acc.placeCounts (evCityKey e),
        visitCountsByName := bumpOpt acc.visitCountsByName (evTitleKey e),
        activityCounts := bumpOpt acc.activityCounts (evActKey e),
        uniquePlaceTitles := addSetOpt acc.uniquePlaceTitles (evTitleKey e),
        minDate := if jsLtD e.startTime acc.minDate then e.startTime else acc.minDate,
        maxDate := if jsLtD acc.maxDate e.endTime then e.endTime else acc.maxDate } := by
  unfold statsStep evDist evCityKey evTitleKey evActKey bumpOpt addSetOpt
  cases htype : e.type <;>
    rcases hd : e.distanceMeters with _ | d <;>
    rcases hc : e.city with _ | c <;>
    rcases ha : e.activityType with _ | s <;>
    simp <;> split_ifs <;> simp_all

theorem foldl_statsStep_dist (l : List ProcessedEvent) (acc : StatsAcc) :
    (l.foldl statsStep acc).totalDistanceMeters =
      acc.totalDistanceMeters + (l.map evDist).sum := by
  induction l generalizing acc with
  | nil => simp
  | cons e l ih =>
    rw [List.foldl_cons, ih, statsStep_eq]
    simp [add_assoc]

theorem foldl_statsStep_place (l : List ProcessedEvent) (acc : StatsAcc) :
    (l.foldl statsStep acc).placeCounts =
      (l.filterMap evCityKey).foldl bump acc.placeCounts := by
  induction l generalizing acc with
  | nil => simp
  | cons e l ih =>
    rw [List.foldl_cons, ih, statsStep_eq]
    rcases h : evCityKey e with _ | c <;> simp [h, bumpOpt]

theorem foldl_statsStep_title (l : List ProcessedEvent) (acc : StatsAcc) :
    (l.foldl statsStep acc).visitCountsByName =
      (l.filterMap evTitleKey).foldl bump acc.visitCountsByName := by
  induction l generalizing acc with
  | nil => simp
  | cons e l ih =>
    rw [List.foldl_cons, ih, statsStep_eq]
    rcases h : evTitleKey e with _ | c <;> simp [h, bumpOpt]

theorem foldl_statsStep_act (l : List ProcessedEvent) (acc : StatsAcc) :
    (l.foldl statsStep acc).activityCounts =
      (l.filterMap evActKey).foldl bump acc.activityCounts := by
  induction l generalizing acc with
  | nil => simp
  | cons e l ih =>
    rw [List.foldl_cons, ih, statsStep_eq]
    rcases h : evActKey e with _ | c <;> simp [h, bumpOpt]

theorem foldl_statsStep_uniq (l : List ProcessedEvent) (acc : StatsAcc) :
    (l.foldl statsStep acc).uniquePlaceTitles =
      (l.filterMap evTitleKey).foldl addSet acc.uniquePlaceTitles := by
  induction l generalizing acc with
  | nil => simp
  | cons e l ih =>
    rw [List.foldl_cons, ih, statsStep_eq]
    rcases h : evTitleKey e with _ | c <;> simp [h, addSetOpt]

theorem foldl_statsStep_min (l : List ProcessedEvent) (acc : StatsAcc) (m : Int)
    (hm : acc.minDate = some m) :
    (l.foldl statsStep acc).minDate =
      some ((l.filterMap ProcessedEvent.startTime).foldl min m) := by
  induction l generalizing acc m with
  | nil => simpa using hm
  | cons e l ih =>
    rw [List.foldl_cons]
    rcases ht : e.startTime with _ | t
    · rw [ih _ m]
      · simp [ht]
      · rw [statsStep_eq]
        simp [ht, jsLtD, hm]
    · rw [ih _ (min m t)]
      · simp [ht]
      · rw [statsStep_eq]
        simp only [ht, hm, jsLtD]
        rcases le_or_lt m t with h | h
        · simp [not_lt.mpr h, min_eq_left h]
        · simp [h, min_eq_right h.le]

theorem foldl_statsStep_max (l : List ProcessedEvent) (acc : StatsAcc) (m : Int)
    (hm : acc.maxDate = some m) :
    (l.foldl statsStep acc).maxDate =
      some ((l.filterMap ProcessedEvent.endTime).foldl max m) := by
  induction l generalizing acc m with
  | nil => simpa using hm
  | cons e l ih =>
    rw [List.foldl_cons]
    rcases ht : e.endTime with _ | t
    · rw [ih _ m]
      · simp [ht]
      · rw [statsStep_eq]
        simp [ht, jsLtD, hm]
    · rw [ih _ (max m t)]
      · simp [ht]
      · rw [statsStep_eq]
        simp only [ht, hm, jsLtD]
        rcases le_or_lt t m with h | h
        · simp [not_lt.mpr h, max_eq_left h]
        · simp [h, max_eq_right h.le]

theorem foldl_min_le_init (l : List Int) (a : Int) : l.foldl min a ≤ a := by
  induction l generalizing a with
  | nil => simp
  | cons x l ih => exact (ih (min a x)).trans (min_le_left a x)

theorem foldl_min_le (l : List Int) (a x : Int) (hx : x ∈ l) : l.foldl min a ≤ x := by
  induction l generalizing a with
  | nil => cases hx
  | cons y l ih =>
    rcases List.mem_cons.mp hx with rfl | hx
    · exact (foldl_min_le_init l (min a x)).trans (min_le_right a x)
    · exact ih (min a y) hx

theorem foldl_min_mem (l : List Int) (a : Int) : l.foldl min a = a ∨ l.foldl min a ∈ l := by
  induction l generalizing a with
  | nil => left; rfl
  | cons x l ih =>
    rcases ih (min a x) with h | h
    · rcases le_or_lt a x with hax | hax
      · left; rw [List.foldl_cons, h, min_eq_left hax]
      · right; rw [List.foldl_cons, h, min_eq_right hax.le]; exact List.mem_cons_self x l
    · right; exact List.mem_cons_of_mem x h

theorem foldl_max_ge_init (l : List Int) (a : Int) : a ≤ l.foldl max a := by
  induction l generalizing a with
  | nil => simp
  | cons x l ih => exact (le_max_left a x).trans (ih (max a x))

theorem foldl_max_ge (l : List Int) (a x : Int) (hx : x ∈ l) : x ≤ l.foldl max a := by
  induction l generalizing a with
  | nil => cases hx
  | cons y l ih =>
    rcases List.mem_cons.mp hx with rfl | hx
    · exact (le_max_right a x).trans (foldl_max_ge_init l (max a x))
    · exact ih (max a y) hx

theorem foldl_max_mem (l : List Int) (a : Int) : l.foldl max a = a ∨ l.foldl max a ∈ l := by
  induction l generalizing a with
  | nil => left; rfl
  | cons x l ih =>
    rcases ih (max a x) with h | h
    · rcases le_or_lt x a with hax | hax
      · left; rw [List.foldl_cons, h, max_eq_left hax]
      · right; rw [List.foldl_cons, h, max_eq_right hax.le]; exact List.mem_cons_self x l
    · right; exact List.mem_cons_of_mem x h

/-! ### Lemmas about the insertion-ordered frequency maps -/

theorem alookup_bump (m : List (String × Nat)) (k q : String) :
    alookup (bump m k) q =
      if q = k then some ((alookup m q).getD 0 + 1) else alookup m q := by
  induction m with
  | nil =>
    by_cases h : q = k
    · subst h; simp [bump, alookup]
    · have h' : ¬ k = q := fun hh => h hh.symm
      simp [bump, alookup, h, h']
  | cons kv rest ih =>
    obtain ⟨a, v⟩ := kv
    by_cases hak : a = k <;> by_cases haq : a = q
    · subst hak; subst haq; simp [bump, alookup]
    · subst hak
      have hqk : ¬ q = a := fun h => haq h.symm
      simp [bump, alookup, haq, hqk]
    · subst haq
      simp [bump, alookup, hak]
    · simp [bump, alookup, hak, haq, ih]

theorem keys_bump (m : List (String × Nat)) (k : String) :
    (bump m k).map Prod.fst = addSet (m.map Prod.fst) k := by
  induction m with
  | nil => simp [bump, addSet]
  | cons kv rest ih =>
    obtain ⟨a, v⟩ := kv
    by_cases hak : a = k
    · subst hak
      simp [bump, addSet]
    · have hka : ¬ k = a := fun h => hak h.symm
      simp only [bump, if_neg hak, List.map_cons, ih, addSet, List.mem_cons, hka, false_or]
      by_cases hmem : k ∈ rest.map Prod.fst <;> simp [hmem]

theorem sum_bump (m : List (String × Nat)) (k : String) :
    ((bump m k).map Prod.snd).sum = ((m.map Prod.snd).sum) + 1 := by
  induction m with
  | nil => simp [bump]
  | cons kv rest ih =>
    obtain ⟨a, v⟩ := kv
    by_cases hak : a = k <;> simp [bump, hak, ih] <;> omega

theorem bump_ne_nil (m : List (String × Nat)) (k : String) : bump m k ≠ [] := by
  cases m with
  | nil => simp [bump]
  | cons kv rest =>
    obtain ⟨a, v⟩ := kv
    by_cases hak : a = k <;> simp [bump, hak]

theorem foldl_bump_ne_nil (l : List String) (m : List (String × Nat)) (hm : m ≠ []) :
    l.foldl bump m ≠ [] := by
  induction l generalizing m with
  | nil => exact hm
  | cons x l ih => exact ih (bump m x) (bump_ne_nil m x)

theorem alookup_foldl_bump (l : List String) (m : List (String × Nat)) (q : String) :
    alookup (l.foldl bump m) q =
      if q ∈ l then some ((alookup m q).getD 0 + l.count q) else alookup m q := by
  induction l generalizing m with
  | nil => simp
  | cons x l ih =>
    rw [List.foldl_cons, ih]
    by_cases hqx : q = x
    · subst hqx
      by_cases hql : q ∈ l <;>
        simp [hql, alookup_bump, List.count_cons, List.mem_cons,
          List.count_eq_zero_of_not_mem, *]
      omega
    · have : (q == x) = false := by simp [hqx]
      by_cases hql : q ∈ l <;>
        simp [alookup_bump, hqx, List.count_cons, this, List.mem_cons, hql]

theorem keys_foldl_bump (l : List String) (m : List (String × Nat)) :
    (l.foldl bump m).map Prod.fst = l.foldl addSet (m.map Prod.fst) := by
  induction l generalizing m with
  | nil => rfl
  | cons x l ih => rw [List.foldl_cons, ih, keys_bump, List.foldl_cons]

theorem sum_foldl_bump (l : List String) (m : List (String × Nat)) :
    ((l.foldl bump m).map Prod.snd).sum = (m.map Prod.snd).sum + l.length := by
  induction l generalizing m with
  | nil => simp
  | cons x l ih =>
    rw [List.foldl_cons, ih, sum_bump]
    simp [List.length_cons]
    omega

theorem nodup_addSet (s : List String) (k : String) (hs : s.Nodup) : (addSet s k).Nodup := by
  unfold addSet
  by_cases h : k ∈ s
  · simpa [h]
  · simp only [h, if_false]
    rw [List.nodup_append]
    refine ⟨hs, List.nodup_singleton k, fun a ha hak => ?_⟩
    rw [List.mem_singleton] at hak
    exact h (hak ▸ ha)

theorem nodup_foldl_addSet (l : List String) (s : List String) (hs : s.Nodup) :
    (l.foldl addSet s).Nodup := by
  induction l generalizing s with
  | nil => exact hs
  | cons x l ih => exact ih (addSet s x) (nodup_addSet s x hs)

theorem nodup_keys_countFold (l : List String) : ((countFold l).map Prod.fst).Nodup := by
  rw [countFold, keys_foldl_bump]
  exact nodup_foldl_addSet l [] List.nodup_nil

theorem alookup_some_mem (m : List (String × Nat)) (q : String) (v : Nat)
    (h : alookup m q = some v) : (q, v) ∈ m := by
  induction m with
  | nil => simp [alookup] at h
  | cons kv rest ih =>
    obtain ⟨a, w⟩ := kv
    by_cases haq : a = q
    · subst haq
      simp [alookup] at h
      simp [h]
    · simp [alookup, haq] at h
      exact List.mem_cons_of_mem _ (ih h)

theorem mem_alookup_of_nodup (m : List (String × Nat)) (q : String) (v : Nat)
    (hnd : (m.map Prod.fst).Nodup) (h : (q, v) ∈ m) : alookup m q = some v := by
  induction m with
  | nil => cases h
  | cons kv rest ih =>
    obtain ⟨a, w⟩ := kv
    rw [List.map_cons, List.nodup_cons] at hnd
    rcases List.mem_cons.mp h with heq | hmem
    · cases heq
      simp [alookup]
    · have haq : ¬ a = q := by
        intro heq
        subst heq
        exact hnd.1 (List.mem_map.mpr ⟨(a, v), hmem, rfl⟩)
      simp [alookup, haq]
      exact ih hnd.2 hmem

theorem mem_countFold (l : List String) (k : String) (v : Nat) :
    (k, v) ∈ countFold l ↔ k ∈ l ∧ v = l.count k := by
  constructor
  · intro h
    have := mem_alookup_of_nodup _ _ _ (nodup_keys_countFold l) h
    rw [countFold, alookup_foldl_bump] at this
    by_cases hk : k ∈ l
    · simp [hk, alookup] at this
      exact ⟨hk, this.symm⟩
    · simp [hk, alookup] at this
  · rintro ⟨hk, rfl⟩
    apply alookup_some_mem
    rw [countFold, alookup_foldl_bump]
    simp [hk, alookup]

theorem countFold_perm (l l' : List String) (h : l.Perm l') :
    (countFold l).Perm (countFold l') := by
  have nd : (countFold l).Nodup := (nodup_keys_countFold l).of_map
  have nd' : (countFold l').Nodup := (nodup_keys_countFold l').of_map
  rw [List.perm_ext_iff_of_nodup nd nd']
  rintro ⟨k, v⟩
  rw [mem_countFold, mem_countFold, h.mem_iff, h.count_eq]

theorem countFold_eq_nil (l : List String) : countFold l = [] ↔ l = [] := by
  constructor
  · intro h
    cases l with
    | nil => rfl
    | cons x xs =>
      exact absurd h (foldl_bump_ne_nil xs (bump [] x) (bump_ne_nil [] x))
  · rintro rfl; rfl

/-! ### First-seen order of the frequency-map keys -/

theorem fsAux_congr (l : List String) (s₁ s₂ : List String)
    (h : ∀ a, a ∈ s₁ ↔ a ∈ s₂) : fsAux s₁ l = fsAux s₂ l := by
  induction l generalizing s₁ s₂ with
  | nil => rfl
  | cons x xs ih =>
    by_cases hx : x ∈ s₁
    · rw [fsAux, if_pos hx, fsAux, if_pos ((h x).mp hx), ih s₁ s₂ h]
    · rw [fsAux, if_neg hx, fsAux, if_neg (fun hh => hx ((h x).mpr hh))]
      congr 1
      apply ih
      intro a
      simp [List.mem_cons, h a]

theorem foldl_addSet_eq_fsAux (l : List String) (s : List String) :
    l.foldl addSet s = s ++ fsAux s l := by
  induction l generalizing s with
  | nil => simp [fsAux]
  | cons x xs ih =>
    rw [List.foldl_cons, ih]
    by_cases hx : x ∈ s
    · rw [fsAux, if_pos hx]
      simp [addSet, hx]
    · rw [fsAux, if_neg hx]
      have : addSet s x = s ++ [x] := by simp [addSet, hx]
      rw [this]
      rw [fsAux_congr xs (s ++ [x]) (x :: s) (by intro a; simp [List.mem_cons, List.mem_append, or_comm])]
      simp

theorem mem_fsAux (l seen : List String) (a : String) (h : a ∈ fsAux seen l) :
    a ∈ l ∧ a ∉ seen := by
  induction l generalizing seen with
  | nil => cases h
  | cons x xs ih =>
    by_cases hx : x ∈ seen
    · rw [fsAux, if_pos hx] at h
      obtain ⟨h1, h2⟩ := ih seen h
      exact ⟨List.mem_cons_of_mem x h1, h2⟩
    · rw [fsAux, if_neg hx] at h
      rcases List.mem_cons.mp h with rfl | h
      · exact ⟨List.mem_cons_self a xs, hx⟩
      · obtain ⟨h1, h2⟩ := ih (x :: seen) h
        refine ⟨List.mem_cons_of_mem x h1, fun ha => h2 (List.mem_cons_of_mem x ha)⟩

theorem fsAux_pairwise_firstIdx (l : List String) (seen : List String) :
    (fsAux seen l).Pairwise (fun a b => firstIdx l a < firstIdx l b) := by
  induction l generalizing seen with
  | nil => exact List.Pairwise.nil
  | cons x xs ih =>
    by_cases hx : x ∈ seen
    · rw [fsAux, if_pos hx]
      refine ((ih seen).imp_of_mem ?_)
      intro a b ha hb hab
      have hax : a ≠ x := fun h => (mem_fsAux xs seen a ha).2 (h ▸ hx)
      have hbx : b ≠ x := fun h => (mem_fsAux xs seen b hb).2 (h ▸ hx)
      have hxa : ¬ x = a := fun h => hax h.symm
      have hxb : ¬ x = b := fun h => hbx h.symm
      simp only [firstIdx, hxa, hxb, if_false]
      omega
    · rw [fsAux, if_neg hx]
      refine List.Pairwise.cons ?_ ?_
      · intro b hb
        have hbmem := mem_fsAux xs (x :: seen) b hb
        have hbx : ¬ x = b := fun h => hbmem.2 (h ▸ List.mem_cons_self x seen)
        simp [firstIdx, hbx]
      · refine ((ih (x :: seen)).imp_of_mem ?_)
        intro a b ha hb hab
        have hxa : ¬ x = a := fun h => (mem_fsAux xs (x :: seen) a ha).2 (h ▸ List.mem_cons_self x seen)
        have hxb : ¬ x = b := fun h => (mem_fsAux xs (x :: seen) b hb).2 (h ▸ List.mem_cons_self x seen)
        simp only [firstIdx, hxa, hxb, if_false]
        omega

/-! ### Lemmas about the stable sorts -/

theorem mem_insertByCountDesc (x a : String × Nat) (l : List (String × Nat)) :
    a ∈ insertByCountDesc x l ↔ a = x ∨ a ∈ l := by
  induction l with
  | nil => simp [insertByCountDesc]
  | cons y ys ih =>
    by_cases h : x.2 ≥ y.2
    · simp [insertByCountDesc, h, List.mem_cons, or_comm, or_left_comm, or_assoc]
    · simp only [insertByCountDesc, if_neg h, List.mem_cons, ih]
      tauto

theorem insertByCountDesc_perm (x : String × Nat) (l : List (String × Nat)) :
    (insertByCountDesc x l).Perm (x :: l) := by
  induction l with
  | nil => exact List.Perm.refl _
  | cons y ys ih =>
    by_cases h : x.2 ≥ y.2
    · simp [insertByCountDesc, h]
    · simp only [insertByCountDesc, if_neg h]
      exact (ih.cons y).trans (List.Perm.swap x y ys)

theorem sortByCountDesc_perm (l : List (String × Nat)) : (sortByCountDesc l).Perm l := by
  induction l with
  | nil => exact List.Perm.refl _
  | cons x xs ih =>
    exact (insertByCountDesc_perm x (sortByCountDesc xs)).trans (ih.cons x)

theorem insertByCountDesc_pairwise (φ : (String × Nat) → (String × Nat) → Prop)
    (x : String × Nat) (l : List (String × Nat))
    (hl : l.Pairwise (fun p q => q.2 < p.2 ∨ (p.2 = q.2 ∧ φ p q)))
    (hx : ∀ y ∈ l, φ x y) :
    (insertByCountDesc x l).Pairwise (fun p q => q.2 < p.2 ∨ (p.2 = q.2 ∧ φ p q)) := by
  induction l with
  | nil => simp [insertByCountDesc]
  | cons y ys ih =>
    rw [List.pairwise_cons] at hl
    by_cases h : x.2 ≥ y.2
    · rw [insertByCountDesc, if_pos h]
      refine List.Pairwise.cons ?_ (List.pairwise_cons.mpr hl)
      intro z hz
      rcases List.mem_cons.mp hz with rfl | hz
      · rcases lt_or_eq_of_le h with hlt | heq
        · exact Or.inl hlt
        · exact Or.inr ⟨heq.symm, hx z (List.mem_cons_self z ys)⟩
      · rcases hl.1 z hz with hlt | ⟨heq, _⟩
        · exact Or.inl (hlt.trans_le h)
        · rcases lt_or_eq_of_le h with hlt2 | heq2
          · exact Or.inl (heq ▸ hlt2)
          · exact Or.inr ⟨heq2 ▸ heq, hx z (List.mem_cons_of_mem y hz)⟩
    · rw [insertByCountDesc, if_neg h]
      refine List.Pairwise.cons ?_ (ih hl.2 (fun z hz => hx z (List.mem_cons_of_mem y hz)))
      intro z hz
      rcases (mem_insertByCountDesc x z ys).mp hz with rfl | hz
      · exact Or.inl (lt_of_not_ge h)
      · exact hl.1 z hz

theorem sortByCountDesc_pairwise (φ : (String × Nat) → (String × Nat) → Prop)
    (l : List (String × Nat)) (hl : l.Pairwise φ) :
    (sortByCountDesc l).Pairwise (fun p q => q.2 < p.2 ∨ (p.2 = q.2 ∧ φ p q)) := by
  induction l with
  | nil => exact List.Pairwise.nil
  | cons x xs ih =>
    rw [List.pairwise_cons] at hl
    refine insertByCountDesc_pairwise φ x (sortByCountDesc xs) (ih hl.2) ?_
    intro y hy
    exact hl.1 y ((sortByCountDesc_perm xs).mem_iff.mp hy)

theorem length_insertByStart (x : ProcessedEvent) (l : List ProcessedEvent) :
    (insertByStart x l).length = l.length + 1 := by
  induction l with
  | nil => rfl
  | cons y ys ih =>
    by_cases h : startLe x y <;> simp [insertByStart, h, ih]

theorem length_sortByStartTime (l : List ProcessedEvent) :
    (sortByStartTime l).length = l.length := by
  induction l with
  | nil => rfl
  | cons x xs ih => rw [sortByStartTime, length_insertByStart, ih, List.length_cons]

theorem sortByStartTime_eq_nil (l : List ProcessedEvent) :
    sortByStartTime l = [] ↔ l = [] := by
  constructor
  · intro h
    have := length_sortByStartTime l
    rw [h] at this
    exact List.length_eq_zero.mp this.symm
  · rintro rfl; rfl

/-! ### Field-level characterization of `calculateStats` on non-empty input -/

theorem calculateStats_topCities (now : Int) (events : List ProcessedEvent) (h : events ≠ []) :
    (calculateStats now events).topCities =
      (sortByCountDesc (countFold (visitCities events))).take 5 := by
  simp only [calculateStats, if_neg h]
  rw [foldl_statsStep_place]
  rfl

theorem calculateStats_placeVisitCounts (now : Int) (events : List ProcessedEvent)
    (h : events ≠ []) :
    (calculateStats now events).placeVisitCounts = countFold (visitTitles events) := by
  simp only [calculateStats, if_neg h]
  rw [foldl_statsStep_title]
  rfl

theorem calculateStats_activityBreakdown (now : Int) (events : List ProcessedEvent)
    (h : events ≠ []) :
    (calculateStats now events).activityBreakdown =
      if countFold (moveActs events) = [] ∧ events.length > 0 then
        [("Recorded Points", events.length)]
      else countFold (moveActs events) := by
  simp only [calculateStats, if_neg h]
  rw [foldl_statsStep_act]
  rfl

theorem calculateStats_totalDistanceKm (now : Int) (events : List ProcessedEvent)
    (h : events ≠ []) :
    (calculateStats now events).totalDistanceKm =
      jsRound ((events.map evDist).sum / 1000) := by
  simp only [calculateStats, if_neg h]
  rw [foldl_statsStep_dist]
  simp [statsInit]

theorem calculateStats_totalVisits (now : Int) (events : List ProcessedEvent) :
    (calculateStats now events).totalVisits =
      events.countP (fun e => decide (e.type = .VISIT)) := by
  by_cases h : events = []
  · subst h; rfl
  · simp only [calculateStats, if_neg h]

theorem calculateStats_uniquePlaces (now : Int) (events : List ProcessedEvent)
    (h : events ≠ []) :
    (calculateStats now events).uniquePlaces = (countFold (visitTitles events)).length := by
  simp only [calculateStats, if_neg h]
  rw [foldl_statsStep_uniq]
  have : (countFold (visitTitles events)).length
      = ((countFold (visitTitles events)).map Prod.fst).length := by
    rw [List.length_map]
  rw [this, countFold, keys_foldl_bump]
  rfl

theorem calculateStats_dateRangeStart (now : Int) (events : List ProcessedEvent)
    (h : events ≠ []) :
    (calculateStats now events).dateRangeStart =
      some ((events.filterMap ProcessedEvent.startTime).foldl min SENTMAX) := by
  simp only [calculateStats, if_neg h]
  rw [foldl_statsStep_min events statsInit SENTMAX rfl]

theorem calculateStats_dateRangeEnd (now : Int) (events : List ProcessedEvent)
    (h : events ≠ []) :
    (calculateStats now events).dateRangeEnd =
      some ((events.filterMap ProcessedEvent.endTime).foldl max (-SENTMAX)) := by
  simp only [calculateStats, if_neg h]
  rw [foldl_statsStep_max events statsInit (-SENTMAX) rfl]

theorem validT_spec (d : JsDate) (h : validT d = true) :
    ∃ t, d = some t ∧ -SENTMAX ≤ t ∧ t ≤ SENTMAX := by
  cases d with
  | none => simp [validT] at h
  | some t =>
    refine ⟨t, rfl, ?_⟩
    simpa [validT] using h

/-! ### Claim C1 -/

/-- Claim C1 counterexample: a single event with `startTime = 2 ms` and
`endTime = 1 ms`.  The claim asserts `dateRange.end = max over startTime and
endTime = 2 ms`, but `calculateStats` only folds `endTime` into the upper
bound and returns `1 ms`. -/
theorem C1_counterexample :
    (calculateStats 0 [c1cex]).dateRangeEnd = some 1 ∧
    (calculateStats 0 [c1cex]).dateRangeEnd ≠ some (max 2 1) := by
  decide

/-- Claim C1 (amended): for every non-empty event list whose start and end
times are valid instants, `dateRange.start` is the minimum `startTime` over
all events and `dateRange.end` is the maximum `endTime` over all events
(`startTime` values are not consulted for the end bound). -/
theorem C1_dateRange_min_start_max_end (now : Int) (events : List ProcessedEvent)
    (hne : events ≠ [])
    (hv : ∀ e ∈ events, validT e.startTime = true ∧ validT e.endTime = true) :
    ((∃ e ∈ events, (calculateStats now events).dateRangeStart = e.startTime) ∧
      (∀ e ∈ events, jsDLe (calculateStats now events).dateRangeStart e.startTime)) ∧
    ((∃ e ∈ events, (calculateStats now events).dateRangeEnd = e.endTime) ∧
      (∀ e ∈ events, jsDLe e.endTime (calculateStats now events).dateRangeEnd)) := by
  obtain ⟨e0, he0⟩ := List.exists_mem_of_ne_nil events hne
  have hstart := calculateStats_dateRangeStart now events hne
  have hend := calculateStats_dateRangeEnd now events hne
  constructor
  · constructor
    · rcases foldl_min_mem (events.filterMap ProcessedEvent.startTime) SENTMAX with hs | hs
      · obtain ⟨t0, ht0, _, ht0le⟩ := validT_spec _ (hv e0 he0).1
        have ht0mem : t0 ∈ events.filterMap ProcessedEvent.startTime :=
          List.mem_filterMap.mpr ⟨e0, he0, ht0⟩
        have hle := foldl_min_le _ SENTMAX t0 ht0mem
        rw [hs] at hle
        have : t0 = SENTMAX := le_antisymm ht0le hle
        exact ⟨e0, he0, by rw [hstart, hs, ht0, this]⟩
      · obtain ⟨e, he, hes⟩ := List.mem_filterMap.mp hs
        exact ⟨e, he, by rw [hstart, hes]⟩
    · intro e he
      obtain ⟨t, ht, _, _⟩ := validT_spec _ (hv e he).1
      refine ⟨_, t, hstart, ht, ?_⟩
      exact foldl_min_le _ SENTMAX t (List.mem_filterMap.mpr ⟨e, he, ht⟩)
  · constructor
    · rcases foldl_max_mem (events.filterMap ProcessedEvent.endTime) (-SENTMAX) with hs | hs
      · obtain ⟨t0, ht0, ht0ge, _⟩ := validT_spec _ (hv e0 he0).2
        have ht0mem : t0 ∈ events.filterMap ProcessedEvent.endTime :=
          List.mem_filterMap.mpr ⟨e0, he0, ht0⟩
        have hle := foldl_max_ge _ (-SENTMAX) t0 ht0mem
        rw [hs] at hle
        have : t0 = -SENTMAX := le_antisymm hle ht0ge
        exact ⟨e0, he0, by rw [hend, hs, ht0, this]⟩
      · obtain ⟨e, he, hes⟩ := List.mem_filterMap.mp hs
        exact ⟨e, he, by rw [hend, hes]⟩
    · intro e he
      obtain ⟨t, ht, _, _⟩ := validT_spec _ (hv e he).2
      refine ⟨t, _, ht, hend, ?_⟩
      exact foldl_max_ge _ (-SENTMAX) t (List.mem_filterMap.mpr ⟨e, he, ht⟩)

/-- Claim C1 witness: the amended theorem applied to a concrete one-event list. -/
theorem C1_witness :
    ((∃ e ∈ [c1ev], (calculateStats 0 [c1ev]).dateRangeStart = e.startTime) ∧
      (∀ e ∈ [c1ev], jsDLe (calculateStats 0 [c1ev]).dateRangeStart e.startTime)) ∧
    ((∃ e ∈ [c1ev], (calculateStats 0 [c1ev]).dateRangeEnd = e.endTime) ∧
      (∀ e ∈ [c1ev], jsDLe e.endTime (calculateStats 0 [c1ev]).dateRangeEnd)) :=
  C1_dateRange_min_start_max_end 0 [c1ev] (by decide) (by decide)

/-! ### Claim C10 -/

theorem length_visitTitles (events : List ProcessedEvent) :
    (visitTitles events).length = events.countP (fun e => decide (e.type = .VISIT)) := by
  induction events with
  | nil => rfl
  | cons e l ih =>
    by_cases h : e.type = EventType.VISIT <;>
      simp [visitTitles, evTitleKey, h, List.countP_cons, ih] <;>
      simp [visitTitles] at ih <;> omega

/-- Claim C10: for every event list the aggregate output is internally
coherent: the values of `placeVisitCounts` sum to `totalVisits`, and the
number of `placeVisitCounts` entries equals `uniquePlaces`. -/
theorem C10_stats_coherence (now : Int) (events : List ProcessedEvent) :
    (((calculateStats now events).placeVisitCounts.map Prod.snd).sum
        = (calculateStats now events).totalVisits) ∧
    ((calculateStats now events).placeVisitCounts.length
        = (calculateStats now events).uniquePlaces) := by
  by_cases h : events = []
  · subst h; exact ⟨rfl, rfl⟩
  · constructor
    · rw [calculateStats_placeVisitCounts now events h, calculateStats_totalVisits,
        countFold, sum_foldl_bump, ← length_visitTitles]
      simp
    · rw [calculateStats_placeVisitCounts now events h, calculateStats_uniquePlaces now events h]

/-! ### Claim C4 -/

theorem mem_visitCities_ne (events : List ProcessedEvent) (c : String)
    (h : c ∈ visitCities events) : c ≠ "" := by
  obtain ⟨e, _, hk⟩ := List.mem_filterMap.mp h
  unfold evCityKey at hk
  split at hk
  · split at hk
    · rename_i hne
      cases hk
      exact hne
    · cases hk
  · cases hk

theorem count_visitCities (events : List ProcessedEvent) (c : String) (hc : c ≠ "") :
    (visitCities events).count c =
      events.countP (fun e => decide (e.type = .VISIT ∧ e.city = some c)) := by
  rw [visitCities, List.count_filterMap]
  apply List.countP_congr
  intro e _
  unfold evCityKey
  cases ht : e.type <;> cases hcy : e.city <;> simp
  case VISIT.some c' =>
    by_cases h' : c' = ""
    · subst h'
      simp [Ne.symm hc]
    · simp [h']

theorem countFold_keys_pairwise (l : List String) :
    (countFold l).Pairwise (fun p q => firstIdx l p.1 < firstIdx l q.1) := by
  have hkeys : (countFold l).map Prod.fst = fsAux [] l := by
    rw [countFold, keys_foldl_bump]
    simpa using foldl_addSet_eq_fsAux l []
  have h := fsAux_pairwise_firstIdx l []
  rw [← hkeys, List.pairwise_map] at h
  exact h

/-- Claim C4: for every event list, `topCities` has at most 5 entries; each
entry pairs a city with the number of Visit events carrying that city;
entries are ordered by descending count; and entries with equal counts appear
in the order their city was first encountered among the input's visit events. -/
theorem C4_topCities_spec (now : Int) (events : List ProcessedEvent) :
    (calculateStats now events).topCities.length ≤ 5 ∧
    (∀ p ∈ (calculateStats now events).topCities,
        p.2 = events.countP (fun e => decide (e.type = .VISIT ∧ e.city = some p.1))) ∧
    (calculateStats now events).topCities.Pairwise (fun p q => q.2 ≤ p.2) ∧
    (∀ i j (hi : i < (calculateStats now events).topCities.length)
        (hj : j < (calculateStats now events).topCities.length), i < j →
        ((calculateStats now events).topCities.get ⟨i, hi⟩).2
            = ((calculateStats now events).topCities.get ⟨j, hj⟩).2 →
        firstIdx (visitCities events) ((calculateStats now events).topCities.get ⟨i, hi⟩).1
            < firstIdx (visitCities events) ((calculateStats now events).topCities.get ⟨j, hj⟩).1) := by
  by_cases hne : events = []
  · subst hne
    refine ⟨by simp [calculateStats], by simp [calculateStats], by simp [calculateStats], ?_⟩
    intro i j hi hj _ _
    simp [calculateStats] at hi
  · have htc := calculateStats_topCities now events hne
    have hlex := sortByCountDesc_pairwise _ _ (countFold_keys_pairwise (visitCities events))
    have hlex5 := hlex.sublist (List.take_sublist 5 (sortByCountDesc (countFold (visitCities events))))
    rw [← htc] at hlex5
    refine ⟨?_, ?_, ?_, ?_⟩
    · rw [htc]; exact List.length_take_le 5 _
    · intro p hp
      rw [htc] at hp
      have hp' := (sortByCountDesc_perm _).mem_iff.mp
        ((List.take_sublist 5 _).subset hp)
      obtain ⟨hmem, hcount⟩ := (mem_countFold (visitCities events) p.1 p.2).mp (by simpa using hp')
      rw [hcount, count_visitCities events p.1 (mem_visitCities_ne events p.1 hmem)]
    · exact hlex5.imp (fun h => by rcases h with h | ⟨h, _⟩; exact h.le; exact h.symm.le)
    · intro i j hi hj hij heq
      have h := List.pairwise_iff_getElem.mp hlex5 i j hi hj hij
      rw [List.get_eq_getElem, List.get_eq_getElem] at heq ⊢
      rcases h with h | ⟨_, h⟩
      · rw [heq] at h
        exact absurd h (lt_irrefl _)
      · exact h

/-- Claim C4 witness: the theorem applied to a concrete three-event list. -/
theorem C4_witness :
    (calculateStats 0 [c1ev]).topCities.length ≤ 5 ∧
    (∀ p ∈ (calculateStats 0 [c1ev]).topCities,
        p.2 = [c1ev].countP (fun e => decide (e.type = .VISIT ∧ e.city = some p.1))) ∧
    (calculateStats 0 [c1ev]).topCities.Pairwise (fun p q => q.2 ≤ p.2) ∧
    (∀ i j (hi : i < (calculateStats 0 [c1ev]).topCities.length)
        (hj : j < (calculateStats 0 [c1ev]).topCities.length), i < j →
        ((calculateStats 0 [c1ev]).topCities.get ⟨i, hi⟩).2
            = ((calculateStats 0 [c1ev]).topCities.get ⟨j, hj⟩).2 →
        firstIdx (visitCities [c1ev]) ((calculateStats 0 [c1ev]).topCities.get ⟨i, hi⟩).1
            < firstIdx (visitCities [c1ev]) ((calculateStats 0 [c1ev]).topCities.get ⟨j, hj⟩).1) :=
  C4_topCities_spec 0 [c1ev]

/-! ### Claim C5 -/

theorem pairwise_trivial (m : List (String × Nat)) : m.Pairwise (fun _ _ => True) := by
  induction m with
  | nil => exact List.Pairwise.nil
  | cons x xs ih => exact List.Pairwise.cons (fun _ _ => trivial) ih

theorem sortByCountDesc_sorted (m : List (String × Nat)) :
    (sortByCountDesc m).Pairwise (fun p q => q.2 ≤ p.2) := by
  have h := sortByCountDesc_pairwise (fun _ _ => True) m (pairwise_trivial m)
  exact h.imp (fun hpq => by rcases hpq with h | ⟨h, _⟩; exact h.le; exact h.symm.le)

theorem topCities_counts_perm (m₁ m₂ : List (String × Nat)) (h : m₁.Perm m₂) :
    (sortByCountDesc m₁).map Prod.snd = (sortByCountDesc m₂).map Prod.snd := by
  have hperm : (sortByCountDesc m₁).Perm (sortByCountDesc m₂) :=
    ((sortByCountDesc_perm m₁).trans h).trans (sortByCountDesc_perm m₂).symm
  have hmap : ((sortByCountDesc m₁).map Prod.snd).Perm ((sortByCountDesc m₂).map Prod.snd) :=
    hperm.map Prod.snd
  haveI : IsAntisymm Nat (fun a b => b ≤ a) := ⟨fun _ _ h1 h2 => le_antisymm h2 h1⟩
  have hs1 : List.Sorted (fun a b => b ≤ a) ((sortByCountDesc m₁).map Prod.snd) :=
    List.pairwise_map.mpr ((sortByCountDesc_sorted m₁).imp (fun hh => hh))
  have hs2 : List.Sorted (fun a b => b ≤ a) ((sortByCountDesc m₂).map Prod.snd) :=
    List.pairwise_map.mpr ((sortByCountDesc_sorted m₂).imp (fun hh => hh))
  exact List.eq_of_perm_of_sorted hmap hs1 hs2

/-- Claim C5 counterexample: six cities all tied at count 1.  Reversing the
input changes which five survive the `topCities` cutoff, so the two runs'
`topCities` are not even permutations of one another — more than the relative
order of tied entries differs. -/
theorem C5_counterexample :
    c5l1.Perm c5l2 ∧
    ¬ (calculateStats 0 c5l1).topCities.Perm ((calculateStats 0 c5l2).topCities) := by
  decide

/-- Claim C5 (amended): aggregation is permutation-invariant in
`totalDistanceKm`, `totalVisits`, `uniquePlaces`, `dateRange`,
`placeVisitCounts` (as a key-to-count mapping) and `activityBreakdown` (as an
unordered collection of entries); `topCities` keeps the same descending count
sequence, but where counts tie both the relative order of tied entries and the
choice of tied cities at the 5-entry cutoff may change. -/
theorem C5_perm_invariance (now : Int) (l₁ l₂ : List ProcessedEvent) (h : l₁.Perm l₂) :
    (calculateStats now l₁).totalDistanceKm = (calculateStats now l₂).totalDistanceKm ∧
    (calculateStats now l₁).totalVisits = (calculateStats now l₂).totalVisits ∧
    (calculateStats now l₁).uniquePlaces = (calculateStats now l₂).uniquePlaces ∧
    (calculateStats now l₁).dateRangeStart = (calculateStats now l₂).dateRangeStart ∧
    (calculateStats now l₁).dateRangeEnd = (calculateStats now l₂).dateRangeEnd ∧
    (∀ k, alookup (calculateStats now l₁).placeVisitCounts k
        = alookup (calculateStats now l₂).placeVisitCounts k) ∧
    (calculateStats now l₁).activityBreakdown.Perm (calculateStats now l₂).activityBreakdown ∧
    (calculateStats now l₁).topCities.map Prod.snd
        = (calculateStats now l₂).topCities.map Prod.snd := by
  by_cases hnil : l₁ = []
  · subst hnil
    have : l₂ = [] := h.symm.eq_nil
    subst this
    exact ⟨rfl, rfl, rfl, rfl, rfl, fun _ => rfl, List.Perm.refl _, rfl⟩
  · have hnil2 : l₂ ≠ [] := fun hh => hnil (by rw [hh] at h; exact h.eq_nil)
    have htitles : (visitTitles l₁).Perm (visitTitles l₂) := h.filterMap evTitleKey
    have hcities : (visitCities l₁).Perm (visitCities l₂) := h.filterMap evCityKey
    have hacts : (moveActs l₁).Perm (moveActs l₂) := h.filterMap evActKey
    refine ⟨?_, ?_, ?_, ?_, ?_, ?_, ?_, ?_⟩
    · rw [calculateStats_totalDistanceKm now l₁ hnil, calculateStats_totalDistanceKm now l₂ hnil2,
        (h.map evDist).sum_eq]
    · rw [calculateStats_totalVisits, calculateStats_totalVisits, h.countP_eq]
    · rw [calculateStats_uniquePlaces now l₁ hnil, calculateStats_uniquePlaces now l₂ hnil2,
        (countFold_perm _ _ htitles).length_eq]
    · rw [calculateStats_dateRangeStart now l₁ hnil, calculateStats_dateRangeStart now l₂ hnil2]
      congr 1
      exact (h.filterMap ProcessedEvent.startTime).foldl_eq'
        (fun x _ y _ z => min_right_comm z x y) SENTMAX
    · rw [calculateStats_dateRangeEnd now l₁ hnil, calculateStats_dateRangeEnd now l₂ hnil2]
      congr 1
      exact (h.filterMap ProcessedEvent.endTime).foldl_eq'
        (fun x _ y _ z => by rw [max_assoc, max_comm x y, ← max_assoc]) (-SENTMAX)
    · intro k
      rw [calculateStats_placeVisitCounts now l₁ hnil, calculateStats_placeVisitCounts now l₂ hnil2,
        countFold, countFold, alookup_foldl_bump, alookup_foldl_bump, htitles.count_eq]
      by_cases hk : k ∈ visitTitles l₁
      · rw [if_pos hk, if_pos (htitles.mem_iff.mp hk)]
      · rw [if_neg hk, if_neg (fun hh => hk (htitles.mem_iff.mpr hh))]
    · rw [calculateStats_activityBreakdown now l₁ hnil, calculateStats_activityBreakdown now l₂ hnil2]
      by_cases hemp : moveActs l₁ = []
      · have hemp2 : moveActs l₂ = [] := by rw [hemp] at hacts; exact hacts.symm.eq_nil
        have hc1 : countFold (moveActs l₁) = [] ∧ l₁.length > 0 :=
          ⟨(countFold_eq_nil _).mpr hemp, by simpa [List.length_pos] using hnil⟩
        have hc2 : countFold (moveActs l₂) = [] ∧ l₂.length > 0 :=
          ⟨(countFold_eq_nil _).mpr hemp2, by simpa [List.length_pos] using hnil2⟩
        rw [if_pos hc1, if_pos hc2, h.length_eq]
      · have hemp2 : moveActs l₂ ≠ [] := fun hh => hemp (by rw [hh] at hacts; exact hacts.eq_nil)
        have hc1 : ¬ (countFold (moveActs l₁) = [] ∧ l₁.length > 0) :=
          fun hc => hemp ((countFold_eq_nil _).mp hc.1)
        have hc2 : ¬ (countFold (moveActs l₂) = [] ∧ l₂.length > 0) :=
          fun hc => hemp2 ((countFold_eq_nil _).mp hc.1)
        rw [if_neg hc1, if_neg hc2]
        exact countFold_perm _ _ hacts
    · rw [calculateStats_topCities now l₁ hnil, calculateStats_topCities now l₂ hnil2,
        List.map_take, List.map_take, topCities_counts_perm _ _ (countFold_perm _ _ hcities)]

/-- Claim C5 witness: the amended theorem applied to a concrete pair of
permuted two-event lists. -/
theorem C5_witness :
    (calculateStats 0 c5w1).totalDistanceKm = (calculateStats 0 c5w2).totalDistanceKm ∧
    (calculateStats 0 c5w1).totalVisits = (calculateStats 0 c5w2).totalVisits ∧
    (calculateStats 0 c5w1).uniquePlaces = (calculateStats 0 c5w2).uniquePlaces ∧
    (calculateStats 0 c5w1).dateRangeStart = (calculateStats 0 c5w2).dateRangeStart ∧
    (calculateStats 0 c5w1).dateRangeEnd = (calculateStats 0 c5w2).dateRangeEnd ∧
    (∀ k, alookup (calculateStats 0 c5w1).placeVisitCounts k
        = alookup (calculateStats 0 c5w2).placeVisitCounts k) ∧
    (calculateStats 0 c5w1).activityBreakdown.Perm (calculateStats 0 c5w2).activityBreakdown ∧
    (calculateStats 0 c5w1).topCities.map Prod.snd
        = (calculateStats 0 c5w2).topCities.map Prod.snd :=
  C5_perm_invariance 0 c5w1 c5w2 (by decide)

/-! ### Branch-level lemmas about `processRecord` -/

theorem semVisitEvents_start_none (i : Nat) (v : VisitObj) (endD : JsDate) :
    semVisitEvents i v none endD = [] := by
  unfold semVisitEvents
  dsimp only
  split
  · rename_i la ln heq1 heq2
    cases heq2
  · rfl

theorem semActivityEvents_start_none (i : Nat) (a : ActivityObj) (endD : JsDate) :
    semActivityEvents i a none endD = [] := by
  unfold semActivityEvents
  dsimp only
  split
  · rename_i la ln heq1 heq2
    cases heq2
  · rfl

theorem rawSignalEvents_bad_ts (i : Nat) (pos : PositionObj)
    (h : pos.timestamp = some none) : rawSignalEvents i pos = [] := by
  unfold rawSignalEvents
  rw [h]
  split
  · rename_i la ln p heq1 heq2
    cases heq2
    rfl
  · rfl

theorem mem_semVisitEvents (i : Nat) (v : VisitObj) (s d : JsDate) (e : ProcessedEvent)
    (he : e ∈ semVisitEvents i v s d) : e.type = .VISIT ∧ e.activityType = none := by
  unfold semVisitEvents at he
  dsimp only at he
  split at he
  · rw [List.mem_singleton] at he
    subst he
    exact ⟨rfl, rfl⟩
  · cases he

theorem mem_semActivityEvents (i : Nat) (a : ActivityObj) (s d : JsDate) (e : ProcessedEvent)
    (he : e ∈ semActivityEvents i a s d) :
    e.type = .MOVE ∧
    e.activityType = some (replaceUnderscores (jsOrStr a.topCandidateType "MOVE")) := by
  unfold semActivityEvents at he
  dsimp only at he
  split at he
  · rw [List.mem_singleton] at he
    subst he
    exact ⟨rfl, rfl⟩
  · cases he

theorem mem_timelinePathEvents (i : Nat) (pts : List PathPoint) (pst : Option Int)
    (e : ProcessedEvent) (he : e ∈ timelinePathEvents i pts pst) :
    e.type = .POINT ∧ e.activityType = none := by
  unfold timelinePathEvents at he
  obtain ⟨pr, _, hf⟩ := List.mem_filterMap.mp he
  dsimp only at hf
  split at hf
  · split at hf
    · split at hf
      · cases hf
        exact ⟨rfl, rfl⟩
      · cases hf
    · cases hf
  · cases hf

theorem mem_rawSignalEvents (i : Nat) (pos : PositionObj) (e : ProcessedEvent)
    (he : e ∈ rawSignalEvents i pos) : e.type = .POINT ∧ e.activityType = none := by
  unfold rawSignalEvents at he
  split at he
  · split at he
    · split at he
      · rw [List.mem_singleton] at he
        subst he
        exact ⟨rfl, rfl⟩
      · cases he
    · cases he
  · cases he

theorem mem_legacyVisitEvents (i : Nat) (pv : VisitObj) (e : ProcessedEvent)
    (he : e ∈ legacyVisitEvents i pv) : e.type = .VISIT ∧ e.activityType = none := by
  unfold legacyVisitEvents at he
  dsimp only at he
  split at he
  · rw [List.mem_singleton] at he
    subst he
    exact ⟨rfl, rfl⟩
  · cases he

theorem mem_legacyActivityEvents (i : Nat) (a : ActivityObj) (e : ProcessedEvent)
    (he : e ∈ legacyActivityEvents i a) :
    e.type = .MOVE ∧ e.activityType = some (jsOrStr a.activityType "TRAVEL") ∧
    e.lat = (resolveLatAct (jsOr a.endLocation a.startLocation)).toQ ∧
    e.lng = (resolveLngAct (jsOr a.endLocation a.startLocation)).toQ := by
  unfold legacyActivityEvents at he
  dsimp only at he
  split at he
  · split at he
    · rw [List.mem_singleton] at he
      subst he
      exact ⟨rfl, rfl, rfl, rfl⟩
    · cases he
  · cases he

theorem legacyVisitEvents_zero (i : Nat) (pv : VisitObj)
    (h : resolveLatVisit (pv.location.getD {}) = .num 0 ∨
         resolveLngVisit (pv.location.getD {}) = .num 0) :
    legacyVisitEvents i pv = [] := by
  unfold legacyVisitEvents
  dsimp only
  split
  · rename_i ps heq1 heq2
    rcases h with h | h <;> rw [h] at heq2 <;> simp [JsNum.truthy] at heq2
  · rfl

theorem legacyActivityEvents_zero (i : Nat) (a : ActivityObj)
    (h : resolveLatAct (jsOr a.endLocation a.startLocation) = .num 0 ∨
         resolveLngAct (jsOr a.endLocation a.startLocation) = .num 0) :
    legacyActivityEvents i a = [] := by
  unfold legacyActivityEvents
  dsimp only
  split
  · split
    · rename_i hgate
      rcases h with h | h <;> rw [h] at hgate <;> simp [JsNum.truthy] at hgate
    · rfl
  · rfl

theorem semActivityEvents_some (i : Nat) (a : ActivityObj) (t : Int) (d : JsDate)
    (la ln : ℚ) (h : a.endLatLng = some (la, ln)) :
    semActivityEvents i a (some t) d =
      [{ id := "a-" ++ toString i, type := .MOVE,
         title := replaceUnderscores (jsOrStr a.topCandidateType "MOVE"),
         startTime := some t, endTime := d, lat := la, lng := ln,
         distanceMeters := a.distanceMeters,
         activityType := some (replaceUnderscores (jsOrStr a.topCandidateType "MOVE")) }] := by
  unfold semActivityEvents
  dsimp only
  rw [h]

/-! ### Claim C2 -/

/-- Claim C2 counterexample: a legacy placeVisit record whose timestamp string
is present (truthy) but does not parse to a valid instant still emits one
event, carrying an Invalid-Date `startTime`; the claim asserts that no Event
is emitted for such a record. -/
theorem C2_counterexample :
    (c2rec.placeVisit.map (fun pv =>
        jsOr (pv.duration.bind LegacyDuration.startTimestamp)
          (pv.duration.bind LegacyDuration.startTime)) = some (some none)) ∧
    (processRecord 0 c2rec).length = 1 ∧
    (processRecord 0 c2rec).map ProcessedEvent.startTime = [none] := by
  decide

/-- Claim C2 (amended): an unparseable timestamp suppresses emission for
semantic visit / semantic activity records (those without a `timelinePath`)
and for raw-signal records; legacy records are not checked and may emit an
Event with an invalid timestamp, and `timelinePath` points are governed by
their own per-point timestamps. -/
theorem C2_bad_timestamp_drops (i : Nat) (r : Record) :
    (effStartStr r = some none → r.timelinePath = none → processRecord i r = []) ∧
    (effStartStr r = none → ∀ pos, r.position = some pos → pos.timestamp = some none →
      processRecord i r = []) := by
  constructor
  · intro hst htp
    unfold processRecord
    rw [hst]
    dsimp only
    rcases hv : r.visit with _ | v
    · rcases ha : r.activity with _ | a
      · rw [htp]
      · exact semActivityEvents_start_none i a _
    · exact semVisitEvents_start_none i v _
  · intro hst pos hpos hts
    unfold processRecord
    rw [hst, hpos]
    dsimp only
    exact rawSignalEvents_bad_ts i pos hts

/-- Claim C2 witness: the amended theorem applied to a concrete semantic
record whose timestamp string is present but unparseable. -/
theorem C2_witness :
    effStartStr c2w = some none ∧ c2w.timelinePath = none ∧ processRecord 0 c2w = [] :=
  ⟨rfl, rfl, (C2_bad_timestamp_drops 0 c2w).1 rfl rfl⟩

/-! ### Claim C6 -/

theorem underscore_not_mem_replace (str : String) : '_' ∉ (replaceUnderscores str).data := by
  unfold replaceUnderscores
  intro h
  obtain ⟨c, _, hc⟩ := List.mem_map.mp h
  by_cases hcu : c = '_' <;> simp [hcu] at hc

/-- Claim C6 counterexample: a legacy activity record with transport label
"IN_VEHICLE" emits a Move whose `activityType` still contains an underscore;
the claim asserts every dialect replaces underscores with spaces. -/
theorem C6_counterexample :
    (processRecord 0 c6rec).map ProcessedEvent.type = [.MOVE] ∧
    (processRecord 0 c6rec).map ProcessedEvent.activityType = [some "IN_VEHICLE"] ∧
    '_' ∈ "IN_VEHICLE".data := by
  decide

/-- Claim C6 (amended): a Move emitted from the semantic activity dialect has
an underscore-free `activityType` (the label with underscores replaced by
spaces); a Move emitted from the legacy dialect carries the source label (or
the "TRAVEL" default) verbatim and may contain underscores. -/
theorem C6_activityType_normalization (i : Nat) (r : Record) (e : ProcessedEvent)
    (he : e ∈ processRecord i r) :
    ((effStartStr r).isSome = true → ∀ s, e.activityType = some s → '_' ∉ s.data) ∧
    (effStartStr r = none → e.type = .MOVE →
      ∃ a, jsOr r.activitySegment r.activity = some a ∧
        e.activityType = some (jsOrStr a.activityType "TRAVEL")) := by
  unfold processRecord at he
  rcases hst : effStartStr r with _ | pst
  · rw [hst] at he
    dsimp only at he
    refine ⟨(by intro hcontra; cases hcontra), ?_⟩
    intro _ hmove
    rcases hpos : r.position with _ | pos
    · rw [hpos] at he
      dsimp only at he
      rcases hpv : jsOr r.placeVisit r.visit with _ | pv
      · rw [hpv] at he
        dsimp only at he
        rcases ha : jsOr r.activitySegment r.activity with _ | a
        · rw [ha] at he
          cases he
        · rw [ha] at he
          dsimp only at he
          exact ⟨a, rfl, (mem_legacyActivityEvents i a e he).2.1⟩
      · rw [hpv] at he
        dsimp only at he
        have := mem_legacyVisitEvents i pv e he
        rw [this.1] at hmove
        cases hmove
    · rw [hpos] at he
      dsimp only at he
      have := mem_rawSignalEvents i pos e he
      rw [this.1] at hmove
      cases hmove
  · rw [hst] at he
    dsimp only at he
    refine ⟨?_, (by intro hcontra; cases hcontra)⟩
    intro _ s hs
    rcases hv : r.visit with _ | v
    · rw [hv] at he
      dsimp only at he
      rcases ha : r.activity with _ | a
      · rw [ha] at he
        dsimp only at he
        rcases htp : r.timelinePath with _ | pts
        · rw [htp] at he
          cases he
        · rw [htp] at he
          dsimp only at he
          have := mem_timelinePathEvents i pts pst e he
          rw [this.2] at hs
          cases hs
      · rw [ha] at he
        dsimp only at he
        have := mem_semActivityEvents i a _ _ e he
        rw [this.2] at hs
        cases hs
        exact underscore_not_mem_replace _
    · rw [hv] at he
      dsimp only at he
      have := mem_semVisitEvents i v _ _ e he
      rw [this.2] at hs
      cases hs

/-- Claim C6 witness: the amended theorem applied to a concrete semantic
activity record with label "IN_BUS" and its emitted Move event. -/
theorem C6_witness :
    ((effStartStr c6w).isSome = true → ∀ s, c6we.activityType = some s → '_' ∉ s.data) ∧
    (effStartStr c6w = none → c6we.type = .MOVE →
      ∃ a, jsOr c6w.activitySegment c6w.activity = some a ∧
        c6we.activityType = some (jsOrStr a.activityType "TRAVEL")) :=
  C6_activityType_normalization 0 c6w c6we (by decide)

/-! ### Claim C7 -/

/-- Claim C7 counterexample: a record with both a visit and an activity object
but no start time and a raw-signal `position` emits a Point, not a Visit; the
claim asserts every emitted event has kind Visit. -/
theorem C7_counterexample :
    c7rec.visit.isSome = true ∧ c7rec.activity.isSome = true ∧
    (processRecord 0 c7rec).map ProcessedEvent.type = [.POINT] ∧
    EventType.POINT ≠ EventType.VISIT := by
  decide

/-- Claim C7 (amended): a record carrying both a visit and an activity object
never emits a Move; every emitted event is a Visit unless the record is
classified as a raw signal (no start time, a `position` object), in which
case it is a Point. -/
theorem C7_visit_priority (i : Nat) (r : Record) (e : ProcessedEvent)
    (hvs : r.visit.isSome = true) (_has : r.activity.isSome = true)
    (he : e ∈ processRecord i r) :
    e.type ≠ .MOVE ∧
    ((effStartStr r).isSome = true ∨ r.position = none → e.type = .VISIT) := by
  obtain ⟨v, hv⟩ := Option.isSome_iff_exists.mp hvs
  unfold processRecord at he
  rcases hst : effStartStr r with _ | pst
  · rw [hst] at he
    dsimp only at he
    rcases hpos : r.position with _ | pos
    · rw [hpos] at he
      dsimp only at he
      rcases hpv : jsOr r.placeVisit r.visit with _ | pv
      · exfalso
        rw [hv] at hpv
        unfold jsOr at hpv
        split at hpv
        · cases hpv
        · cases hpv
      · rw [hpv] at he
        dsimp only at he
        have := mem_legacyVisitEvents i pv e he
        exact ⟨fun hh => absurd (this.1.symm.trans hh) (by decide), fun _ => this.1⟩
    · rw [hpos] at he
      dsimp only at he
      have := mem_rawSignalEvents i pos e he
      refine ⟨fun hh => absurd (this.1.symm.trans hh) (by decide), fun hcontra => ?_⟩
      rcases hcontra with h | h
      · cases h
      · cases h
  · rw [hst] at he
    dsimp only at he
    rw [hv] at he
    dsimp only at he
    have := mem_semVisitEvents i v _ _ e he
    exact ⟨fun hh => absurd (this.1.symm.trans hh) (by decide), fun _ => this.1⟩

/-- Claim C7 witness: the amended theorem applied to a concrete record with
both objects and a valid visit. -/
theorem C7_witness :
    c7we.type ≠ .MOVE ∧
    ((effStartStr c7w).isSome = true ∨ c7w.position = none → c7we.type = .VISIT) :=
  C7_visit_priority 0 c7w c7we (by decide) (by decide) (by decide)

/-! ### Claim C8 -/

/-- Claim C8: a legacy-dialect record (reached with no start time and no
position) whose resolved latitude or longitude is exactly zero emits no
Event, on both the placeVisit/visit side and the activitySegment/activity side. -/
theorem C8_zero_coordinate_rejection (i : Nat) (r : Record)
    (hst : effStartStr r = none) (hpos : r.position = none) :
    (∀ pv, jsOr r.placeVisit r.visit = some pv →
      (resolveLatVisit (pv.location.getD {}) = .num 0 ∨
       resolveLngVisit (pv.location.getD {}) = .num 0) →
      processRecord i r = []) ∧
    (jsOr r.placeVisit r.visit = none →
      ∀ a, jsOr r.activitySegment r.activity = some a →
      (resolveLatAct (jsOr a.endLocation a.startLocation) = .num 0 ∨
       resolveLngAct (jsOr a.endLocation a.startLocation) = .num 0) →
      processRecord i r = []) := by
  constructor
  · intro pv hpv hzero
    unfold processRecord
    rw [hst, hpos, hpv]
    dsimp only
    exact legacyVisitEvents_zero i pv hzero
  · intro hpv a ha hzero
    unfold processRecord
    rw [hst, hpos, hpv, ha]
    dsimp only
    exact legacyActivityEvents_zero i a hzero

/-- Claim C8 witness: the theorem applied to a concrete legacy visit whose
resolved latitude is zero. -/
theorem C8_witness :
    resolveLatVisit (c8pv.location.getD {}) = .num 0 ∧ processRecord 0 c8w = [] :=
  ⟨by decide, (C8_zero_coordinate_rejection 0 c8w rfl rfl).1 c8pv rfl (Or.inl (by decide))⟩

/-! ### Claim C9 -/

/-- Claim C9: every Move's coordinates come from the end of the segment: a
semantic activity emits a Move from `activity.end` whenever that coordinate
parses (independently of the start coordinate), and a legacy activity takes
its location from `endLocation`, falling back to `startLocation` only when
`endLocation` is absent. -/
theorem C9_move_end_coordinates (i : Nat) (r : Record) :
    (∀ t la ln a, effStartStr r = some (some t) → r.visit = none → r.activity = some a →
      a.endLatLng = some (la, ln) →
      ∃ e, processRecord i r = [e] ∧ e.type = .MOVE ∧ e.lat = la ∧ e.lng = ln) ∧
    (∀ e a, effStartStr r = none → r.position = none → jsOr r.placeVisit r.visit = none →
      jsOr r.activitySegment r.activity = some a → e ∈ processRecord i r →
      e.lat = (resolveLatAct (jsOr a.endLocation a.startLocation)).toQ ∧
      e.lng = (resolveLngAct (jsOr a.endLocation a.startLocation)).toQ) := by
  constructor
  · intro t la ln a hst hv ha hend
    unfold processRecord
    rw [hst, hv, ha]
    dsimp only
    rw [semActivityEvents_some i a t _ la ln hend]
    exact ⟨_, rfl, rfl, rfl, rfl⟩
  · intro e a hst hpos hpv ha he
    unfold processRecord at he
    rw [hst, hpos, hpv, ha] at he
    dsimp only at he
    have := mem_legacyActivityEvents i a e he
    exact ⟨this.2.2.1, this.2.2.2⟩

/-- Claim C9 witness: the theorem applied to a concrete semantic activity
record with only an end coordinate. -/
theorem C9_witness :
    ∃ e, processRecord 0 c9w = [e] ∧ e.type = .MOVE ∧ e.lat = 3 ∧ e.lng = 4 :=
  (C9_move_end_coordinates 0 c9w).1 5 3 4 c9act rfl rfl rfl rfl

/-! ### Claim C3 -/

/-- Claim C3: `parseTimelineData` returns the single NotFound result (null)
in exactly these cases — no record array located, located array empty, an
exception during processing, or zero usable events after per-record filtering —
and it never returns a successful result whose events list is empty. -/
theorem C3_notfound_semantics (now : Int) (doc : Document) :
    (parseTimelineData now doc = none ↔
      (findDataArray doc = none ∨
       findDataArray doc = some [] ∨
       (∃ items, findDataArray doc = some items ∧ processFrom 0 items = .error ()) ∨
       (∃ items, findDataArray doc = some items ∧ processFrom 0 items = .ok []))) ∧
    (∀ res, parseTimelineData now doc = some res → res.events ≠ []) := by
  rcases hfind : findDataArray doc with _ | items
  · constructor
    · simp [parseTimelineData, parseTimelineDataE, hfind]
    · intro res hres
      simp [parseTimelineData, parseTimelineDataE, hfind] at hres
  · by_cases hlen : items.length = 0
    · have hitems : items = [] := List.length_eq_zero.mp hlen
      subst hitems
      constructor
      · simp [parseTimelineData, parseTimelineDataE, hfind]
      · intro res hres
        simp [parseTimelineData, parseTimelineDataE, hfind] at hres
    · rcases hproc : processFrom 0 items with u | events
      · cases u
        constructor
        · simp [parseTimelineData, parseTimelineDataE, hfind, hlen, hproc]
        · intro res hres
          simp [parseTimelineData, parseTimelineDataE, hfind, hlen, hproc] at hres
      · by_cases hev : events.length = 0
        · have : events = [] := List.length_eq_zero.mp hev
          subst this
          constructor
          · simp [parseTimelineData, parseTimelineDataE, hfind, hlen, hproc]
          · intro res hres
            simp [parseTimelineData, parseTimelineDataE, hfind, hlen, hproc] at hres
        · constructor
          · simp [parseTimelineData, parseTimelineDataE, hfind, hlen, hproc, hev]
            exact ⟨fun h => hlen (by simp [h]), fun h => hev (by simp [h])⟩
          · intro res hres
            simp [parseTimelineData, parseTimelineDataE, hfind, hlen, hproc, hev] at hres
            rw [← hres]
            simp [sortByStartTime_eq_nil]
            exact fun hnil => hev (by simp [hnil])

/-- Claim C3 witness: the theorem applied to the document that is itself an
empty array. -/
theorem C3_witness :
    (parseTimelineData 0 (Document.arrD []) = none ↔
      (findDataArray (Document.arrD []) = none ∨
       findDataArray (Document.arrD []) = some [] ∨
       (∃ items, findDataArray (Document.arrD []) = some items ∧
         processFrom 0 items = .error ()) ∨
       (∃ items, findDataArray (Document.arrD []) = some items ∧
         processFrom 0 items = .ok []))) ∧
    (∀ res, parseTimelineData 0 (Document.arrD []) = some res → res.events ≠ []) :=
  C3_notfound_semantics 0 (Document.arrD [])
